import Mathlib

/-!
# Verification of the Image-Processing-API asynchronous pipeline core

Shallow embedding of the batch-processing pipeline of the repository
(`app/tasks/worker.py`, `app/services/image_service.py`,
`app/services/csv_service.py`, `app/database/db.py`).

The external effects (HTTP fetch, image decoding, file-system writes,
webhook delivery) are modelled by oracles supplied as parameters:
a `RefOutcome` per input reference describes whether the fetch/transform
succeeded (with the freshly generated unique file name), failed in the
fetch or transform stage (the code turns this into a `None` from
`process_image`, hence an empty-string placeholder), or raised an
unexpected exception in the orchestration itself (e.g. the file write
in `process_image`, which is outside any try/except of that function).
Database rows become Lean structures; `db.commit()` points are made
explicit where a claim is about intermediate, observable states.
-/

namespace ImageAPI

/-- Embeds `ProcessingStatus` from `app/database/db.py`. -/
inductive ProcessingStatus
  | pending
  | processing
  | completed
  | failed
deriving DecidableEq, Repr

/-- Embeds the `Product` ORM row from `app/database/db.py` (one manifest
row / Item).  `input_image_urls` / `output_image_urls` are kept as lists;
the JSON round-trip of `get_input_urls` / `set_output_urls` is the
identity on them.  `output_image_urls = none` embeds the initial SQL
`NULL` of the nullable column. -/
structure Product where
  serial_number : Nat
  product_name : String
  input_image_urls : List String
  output_image_urls : Option (List String)
  status : ProcessingStatus
deriving DecidableEq, Repr

/-- Embeds `Product.get_output_urls` from `app/database/db.py`:
`if not self.output_image_urls: return []` — a `NULL` column yields the
empty list. -/
def Product.get_output_urls (p : Product) : List String :=
  match p.output_image_urls with
  | none => []
  | some urls => urls

/-- Embeds the `Request` ORM row from `app/database/db.py` (one Batch).
`webhook_triggered` is an `Integer` 0/1 column in the source; it is
embedded as `Bool`.  `webhook_url` is a nullable string column; Python
treats both `None` and `""` as unset (`request.webhook_url or WEBHOOK_URL`),
so it is embedded as a `String` where `""` means unset. -/
structure Request where
  id : String
  status : ProcessingStatus
  total_products : Nat
  processed_products : Nat
  webhook_triggered : Bool
  webhook_url : String
deriving DecidableEq, Repr

/-- The database state visible to one `processBatch` run: the `Request`
row for the batch identifier and the `Product` rows of that batch, in
insertion order.  `db.query(Product).filter(Product.request_id == rid)`
returns exactly these rows; insertion order is the manifest row order
(`process_csv_file` in `app/services/csv_service.py` inserts products
while iterating the manifest rows in order). -/
structure DB where
  request : Request
  products : List Product
deriving DecidableEq, Repr

/-- Number of products of the batch with status `completed`
(the `completed` count query of `update_request_status`). -/
def completedCount (db : DB) : Nat :=
  (db.products.filter (fun p => p.status = ProcessingStatus.completed)).length

/-- Number of products of the batch with status `failed`
(the `failed` count query of `update_request_status`). -/
def failedCount (db : DB) : Nat :=
  (db.products.filter (fun p => p.status = ProcessingStatus.failed)).length

/-- Embeds `update_request_status` from `app/services/image_service.py`
(the StatusAggregator).  It recomputes `total`, `completed`, `failed`
from the product rows, sets `processed_products = completed + failed`,
and then:
`if completed + failed == total:` → `failed` when `failed > 0 and
completed == 0`, else `completed`; `elif completed + failed > 0:` →
`processing`; otherwise the status field is left as it was. -/
def update_request_status (db : DB) : DB :=
  let total := db.products.length
  let c := completedCount db
  let f := failedCount db
  let r1 := { db.request with processed_products := c + f }
  let r2 :=
    if c + f = total then
      if f > 0 ∧ c = 0 then { r1 with status := ProcessingStatus.failed }
      else { r1 with status := ProcessingStatus.completed }
    else if c + f > 0 then { r1 with status := ProcessingStatus.processing }
    else r1
  { db with request := r2 }

/-- Oracle for the external effects of processing one input reference in
`process_image` (`app/services/image_service.py`):
* `ok name` — `download_image` and `compress_image` succeed and the file
  write succeeds; `name` is the freshly generated `uuid4()` file name
  (without the `.jpg` extension);
* `refFail` — `download_image` or `compress_image` returns `None`
  (network error / timeout / non-2xx / undecodable image; both functions
  catch their own exceptions and return `None`);
* `storageEx` — an unexpected exception escapes `process_image`
  (e.g. the `open(output_path, "wb")` write fails; it sits outside
  every try/except of `process_image`). -/
inductive RefOutcome
  | ok (name : String)
  | refFail
  | storageEx
deriving DecidableEq, Repr

/-- The URL string `process_image` returns on success:
`f"{API_BASE_URL}/api/image/{filename}"` with `filename = f"{uuid4()}.jpg"`. -/
def mkImageUrl (base name : String) : String :=
  base ++ "/api/image/" ++ name ++ ".jpg"

/-- Embeds `process_image` from `app/services/image_service.py`, with the
external effects resolved by a `RefOutcome`.  Returns
`Except.error ()` when an unexpected exception escapes,
`Except.ok none` when fetch or transform failed (the function returns
`None`), and `Except.ok (some url)` on success. -/
def process_image (base : String) : RefOutcome → Except Unit (Option String)
  | RefOutcome.ok name => Except.ok (some (mkImageUrl base name))
  | RefOutcome.refFail => Except.ok none
  | RefOutcome.storageEx => Except.error ()

/-- The per-reference loop body of `process_product_images`: for each
input URL in list order, call `process_image`; on `some url` append the
url, on `none` append the `""` placeholder; an exception aborts the loop
(the locally accumulated `output_urls` list is then never persisted).
`i` is the index of the first remaining reference; `oracle i` resolves
the effects of reference `i`. -/
def processRefs (base : String) (oracle : Nat → RefOutcome) :
    List String → Nat → Except Unit (List String)
  | [], _ => Except.ok []
  | _ :: rest, i =>
    match process_image base (oracle i) with
    | Except.error _ => Except.error ()
    | Except.ok res =>
      match processRefs base oracle rest (i + 1) with
      | Except.error _ => Except.error ()
      | Except.ok tail =>
        Except.ok ((match res with
          | some url => url
          | none => "") :: tail)

/-- The sequence of states of the product row committed by
`process_product_images` (`app/services/image_service.py`), in order:
first `product.status = ProcessingStatus.PROCESSING; db.commit()`, then
either the success commit (`set_output_urls(output_urls)` and
`status = COMPLETED`) or, when an exception was caught, the failure
commit (`status = FAILED`, output list untouched). -/
def product_commit_trace (base : String) (oracle : Nat → RefOutcome)
    (p : Product) : List Product :=
  let p1 := { p with status := ProcessingStatus.processing }
  match processRefs base oracle p.input_image_urls 0 with
  | Except.ok outs =>
      [p1, { p1 with output_image_urls := some outs,
                     status := ProcessingStatus.completed }]
  | Except.error _ =>
      [p1, { p1 with status := ProcessingStatus.failed }]

/-- Embeds `process_product_images`: the final committed product row and
the boolean the function returns (`True` on the completed path, `False`
when the try/except caught an exception). -/
def process_product_images (base : String) (oracle : Nat → RefOutcome)
    (p : Product) : Product × Bool :=
  let p1 := { p with status := ProcessingStatus.processing }
  match processRefs base oracle p.input_image_urls 0 with
  | Except.ok outs =>
      ({ p1 with output_image_urls := some outs,
                 status := ProcessingStatus.completed }, true)
  | Except.error _ =>
      ({ p1 with status := ProcessingStatus.failed }, false)

/-- Observable events of one `_process_images` run, in the order they
happen: `proc i` — `process_product_images` invoked on the product at
list index `i`; `agg n` — `update_request_status` invoked, leaving
`processed_products = n`; `hookSent` — the webhook POST of
`trigger_webhook_if_needed` was delivered successfully. -/
inductive Ev
  | proc (i : Nat)
  | agg (n : Nat)
  | hookSent
deriving DecidableEq, Repr

/-- Embeds `trigger_webhook_if_needed` from `app/tasks/worker.py`.
`globalWebhook` is the `WEBHOOK_URL` config value; `deliveryOk` resolves
the outbound POST (did it return 2xx before the 10s timeout).  Returns
the new DB state and whether a callback was delivered (the flag flip
`webhook_triggered = 1; db.commit()` happens only on the success path
of the POST; on failure the exception is caught and logged). -/
def trigger_webhook_if_needed (globalWebhook : String) (deliveryOk : Bool)
    (db : DB) : DB × Bool :=
  let r := db.request
  if r.webhook_triggered ∨ r.status ≠ ProcessingStatus.completed then
    (db, false)
  else
    let url := if r.webhook_url ≠ "" then r.webhook_url else globalWebhook
    if url = "" then (db, false)
    else if deliveryOk then
      ({ db with request := { r with webhook_triggered := true } }, true)
    else (db, false)

/-- One run's external-effect configuration: the `API_BASE_URL`, the
global `WEBHOOK_URL`, the per-product per-reference outcome oracle
(`oracles i j` resolves reference `j` of the product at list index `i`),
whether the webhook POST would succeed, and `fault` — `some k` means an
unexpected exception escapes the driver loop just as it reaches item
index `k` (e.g. a database error in `db.commit()`), landing in the
`except` clause of `_process_images`. -/
structure RunCfg where
  base : String
  globalWebhook : String
  oracles : Nat → Nat → RefOutcome
  deliveryOk : Bool
  fault : Option Nat

/-- The `for product in products:` loop of `_process_images`
(`app/tasks/worker.py`): processes items from index `i` on (`fuel` is
the number of remaining items, `db.products.length - i`), invoking
`process_product_images` and then `update_request_status` for each, in
list order.  Returns the database state, the emitted events, and whether
an unexpected exception escaped the loop. -/
def driveLoop (cfg : RunCfg) : Nat → Nat → DB → DB × List Ev × Bool
  | 0, _, db => (db, [], false)
  | fuel + 1, i, db =>
    if cfg.fault = some i then (db, [], true)
    else
      match db.products[i]? with
      | none => (db, [], false)
      | some p =>
        let p' := (process_product_images cfg.base (cfg.oracles i) p).1
        let db1 := { db with products := db.products.set i p' }
        let db2 := update_request_status db1
        let (db3, evs, faulted) := driveLoop cfg fuel (i + 1) db2
        (db3, Ev.proc i :: Ev.agg db2.request.processed_products :: evs,
         faulted)

/-- The result dict `_process_images` returns:
`{"status": "success", "request_id": rid}` or
`{"status": "error", "request_id": rid, "error": str(e)}`. -/
structure RunResult where
  status : String
  request_id : String
  error : Option String
deriving DecidableEq, Repr

/-- Embeds `_process_images` from `app/tasks/worker.py` (the BatchDriver,
i.e. `processBatch`): sets the request status to `processing`, runs the
item loop, then `trigger_webhook_if_needed`; if an unexpected exception
escaped the loop, the `except` clause sets the request status to
`failed` and returns the error result.  Returns the final DB state, the
result object, and the event trace. -/
def _process_images (cfg : RunCfg) (db0 : DB) : DB × RunResult × List Ev :=
  let rid := db0.request.id
  let db1 := { db0 with
    request := { db0.request with status := ProcessingStatus.processing } }
  match driveLoop cfg db1.products.length 0 db1 with
  | (db2, evs, true) =>
      ({ db2 with
         request := { db2.request with status := ProcessingStatus.failed } },
       { status := "error", request_id := rid, error := some "exception" },
       evs)
  | (db2, evs, false) =>
      let (db3, sent) :=
        trigger_webhook_if_needed cfg.globalWebhook cfg.deliveryOk db2
      (db3,
       { status := "success", request_id := rid, error := none },
       evs ++ if sent then [Ev.hookSent] else [])

/-- One data row of the output CSV written by `generate_output_csv`
(`app/services/csv_service.py`):
`f"{serial},{name},{','.join(input_urls)},{','.join(output_urls)}\n"`. -/
def csvRow (p : Product) : String :=
  toString p.serial_number ++ "," ++ p.product_name ++ "," ++
  String.intercalate "," p.input_image_urls ++ "," ++
  String.intercalate "," p.get_output_urls ++ "\n"

/-- Embeds `generate_output_csv` from `app/services/csv_service.py` as
the list of lines written to the file: `None` unless the request status
is `completed`; otherwise the header line followed by one `csvRow` per
product. -/
def generate_output_csv (db : DB) : Option (List String) :=
  if db.request.status ≠ ProcessingStatus.completed then none
  else some ("S. No.,Product Name,Input Image Urls,Output Image Urls\n"
             :: db.products.map csvRow)

/-- The output-list entry `process_product_images` records for one
reference that did not raise: the returned URL on success, the `""`
placeholder on a fetch/transform failure. -/
def refEntry (base : String) : RefOutcome → String
  | RefOutcome.ok name => mkImageUrl base name
  | RefOutcome.refFail => ""
  | RefOutcome.storageEx => ""

/-- Position of a status along the forward direction of the item state
machine `pending → processing → {completed, failed}`. -/
def statusRank : ProcessingStatus → Nat
  | ProcessingStatus.pending => 0
  | ProcessingStatus.processing => 1
  | ProcessingStatus.completed => 2
  | ProcessingStatus.failed => 2

/-- The product row as `process_product_images` leaves it when the
driver processes the item at list index `j`. -/
def processedItem (cfg : RunCfg) (j : Nat) (p : Product) : Product :=
  (process_product_images cfg.base (cfg.oracles j) p).1

/-! ### Concrete data used by counterexamples and witnesses -/

/-- Oracle where every reference succeeds, with distinct generated names. -/
def oracleOkW : Nat → RefOutcome := fun i => RefOutcome.ok ("n" ++ toString i)

/-- Oracle where every reference raises an unexpected exception during
orchestration (e.g. the file write of `process_image` fails). -/
def oracleExW : Nat → RefOutcome := fun _ => RefOutcome.storageEx

/-- Oracle where reference 0 fails at the fetch/transform stage and
every later reference succeeds. -/
def oracleMixW : Nat → RefOutcome :=
  fun i => if i = 0 then RefOutcome.refFail else RefOutcome.ok ("n" ++ toString i)

/-- A pending request row (fresh batch, no webhook configured). -/
def reqPendingW : Request :=
  { id := "r1", status := ProcessingStatus.pending, total_products := 0,
    processed_products := 0, webhook_triggered := false, webhook_url := "" }

/-- A batch with no product rows at all (empty manifest body). -/
def dbEmptyW : DB := { request := reqPendingW, products := [] }

/-- A pending single-reference product row. -/
def pOneRefW : Product :=
  { serial_number := 1, product_name := "sku1",
    input_image_urls := ["http://img.example/a.png"],
    output_image_urls := none, status := ProcessingStatus.pending }

/-- A second pending product row. -/
def pSecondW : Product :=
  { serial_number := 2, product_name := "sku2",
    input_image_urls := ["http://img.example/b.png"],
    output_image_urls := none, status := ProcessingStatus.pending }

/-- A product row that has already completed, with its persisted output. -/
def pDoneW : Product :=
  { serial_number := 1, product_name := "sku1",
    input_image_urls := ["http://img.example/a.png"],
    output_image_urls := some ["http://localhost:8000/api/image/n0.jpg"],
    status := ProcessingStatus.completed }

/-- A batch where product 0 is already terminal and product 1 is still
pending (mid-run snapshot). -/
def dbHalfW : DB :=
  { request := { reqPendingW with total_products := 2 },
    products := [pDoneW, pSecondW] }

/-- A batch whose single product already completed and whose
notification-sent flag is already true. -/
def dbNotifiedW : DB :=
  { request := { id := "r1", status := ProcessingStatus.completed,
                 total_products := 1, processed_products := 1,
                 webhook_triggered := true,
                 webhook_url := "http://hooks.example/cb" },
    products := [pDoneW] }

/-- A run configuration where everything succeeds and no driver fault
occurs. -/
def cfgOkW : RunCfg :=
  { base := "http://localhost:8000", globalWebhook := "",
    oracles := fun _ => oracleOkW, deliveryOk := true, fault := none }

/-- A run configuration where an unexpected exception escapes the driver
loop as it reaches item index 0. -/
def cfgFaultW : RunCfg :=
  { base := "http://localhost:8000", globalWebhook := "",
    oracles := fun _ => oracleOkW, deliveryOk := true, fault := some 0 }

/-- When the per-reference loop finishes without an exception, the
output list has one entry per input reference, entry `j` is determined
by the outcome of reference `j`, and no reference raised. -/
theorem processRefs_ok_spec (base : String) (oracle : Nat → RefOutcome) :
    ∀ (urls : List String) (i : Nat) (outs : List String),
    processRefs base oracle urls i = Except.ok outs →
    outs.length = urls.length ∧
    ∀ j, j < urls.length →
      oracle (i + j) ≠ RefOutcome.storageEx ∧
      outs[j]? = some (refEntry base (oracle (i + j))) := by
  intro urls
  induction urls with
  | nil =>
    intro i outs h
    simp only [processRefs] at h
    cases h
    exact ⟨rfl, by intro j hj; exact absurd hj (Nat.not_lt_zero j)⟩
  | cons u rest ih =>
    intro i outs h
    simp only [processRefs] at h
    cases hcur : oracle i with
    | storageEx =>
      rw [hcur] at h
      simp [process_image] at h
    | ok name =>
      rw [hcur] at h
      simp only [process_image] at h
      cases hrec : processRefs base oracle rest (i + 1) with
      | error e => rw [hrec] at h; cases h
      | ok tail =>
        rw [hrec] at h
        cases h
        obtain ⟨hlen, hspec⟩ := ih (i + 1) tail hrec
        refine ⟨by simp [hlen], ?_⟩
        intro j hj
        cases j with
        | zero => simp [hcur, refEntry]
        | succ j' =>
          have hj' : j' < rest.length := Nat.lt_of_succ_lt_succ hj
          have := hspec j' hj'
          constructor
          · have : i + (j' + 1) = i + 1 + j' := by omega
            rw [this]
            exact (hspec j' hj').1
          · have heq : i + (j' + 1) = i + 1 + j' := by omega
            rw [heq]
            simpa using (hspec j' hj').2
    | refFail =>
      rw [hcur] at h
      simp only [process_image] at h
      cases hrec : processRefs base oracle rest (i + 1) with
      | error e => rw [hrec] at h; cases h
      | ok tail =>
        rw [hrec] at h
        cases h
        obtain ⟨hlen, hspec⟩ := ih (i + 1) tail hrec
        refine ⟨by simp [hlen], ?_⟩
        intro j hj
        cases j with
        | zero => simp [hcur, refEntry]
        | succ j' =>
          have hj' : j' < rest.length := Nat.lt_of_succ_lt_succ hj
          have heq : i + (j' + 1) = i + 1 + j' := by omega
          constructor
          · rw [heq]; exact (hspec j' hj').1
          · rw [heq]; simpa using (hspec j' hj').2

/-- When the per-reference loop aborts with an exception, some reference
raised one. -/
theorem processRefs_error_spec (base : String) (oracle : Nat → RefOutcome) :
    ∀ (urls : List String) (i : Nat),
    processRefs base oracle urls i = Except.error () →
    ∃ j, j < urls.length ∧ oracle (i + j) = RefOutcome.storageEx := by
  intro urls
  induction urls with
  | nil => intro i h; simp [processRefs] at h
  | cons u rest ih =>
    intro i h
    simp only [processRefs] at h
    cases hcur : oracle i with
    | storageEx => exact ⟨0, Nat.succ_pos _, by simpa using hcur⟩
    | ok name =>
      rw [hcur] at h
      simp only [process_image] at h
      cases hrec : processRefs base oracle rest (i + 1) with
      | error e =>
        obtain ⟨j, hj, hst⟩ := ih (i + 1) hrec
        exact ⟨j + 1, Nat.succ_lt_succ hj, by rw [show i + (j+1) = i+1+j by omega]; exact hst⟩
      | ok tail => rw [hrec] at h; cases h
    | refFail =>
      rw [hcur] at h
      simp only [process_image] at h
      cases hrec : processRefs base oracle rest (i + 1) with
      | error e =>
        obtain ⟨j, hj, hst⟩ := ih (i + 1) hrec
        exact ⟨j + 1, Nat.succ_lt_succ hj, by rw [show i + (j+1) = i+1+j by omega]; exact hst⟩
      | ok tail => rw [hrec] at h; cases h

/-! ### Helper lemmas -/

/-- A product row has a single status, so the `completed` and `failed`
count queries of the aggregator count disjoint sets of rows. -/
theorem counts_le_length (l : List Product) :
    (l.filter (fun p => p.status = ProcessingStatus.completed)).length +
    (l.filter (fun p => p.status = ProcessingStatus.failed)).length ≤
    l.length := by
  induction l with
  | nil => simp
  | cons a t ih =>
    by_cases h1 : a.status = ProcessingStatus.completed
    · have h2 : ¬ a.status = ProcessingStatus.failed := by
        rw [h1]; intro hc; cases hc
      simp only [List.filter_cons, h1, h2]
      simp only [decide_eq_true_eq, if_pos, if_neg, List.length_cons]
      simp [h1, h2]
      omega
    · by_cases h2 : a.status = ProcessingStatus.failed
      · simp [List.filter_cons, h1, h2]
        omega
      · simp [List.filter_cons, h1, h2]
        omega

/-- The aggregator never touches the product rows. -/
theorem update_request_status_products (db : DB) :
    (update_request_status db).products = db.products := rfl

/-- Fields of the request row other than `status` and
`processed_products` pass through the aggregator unchanged. -/
theorem update_request_status_frame (db : DB) :
    (update_request_status db).request.id = db.request.id ∧
    (update_request_status db).request.webhook_triggered =
      db.request.webhook_triggered ∧
    (update_request_status db).request.webhook_url = db.request.webhook_url ∧
    (update_request_status db).request.total_products =
      db.request.total_products := by
  unfold update_request_status
  dsimp only []
  split_ifs <;> exact ⟨rfl, rfl, rfl, rfl⟩

/-- The aggregator always writes `processed_products = completed + failed`. -/
theorem update_request_status_processed (db : DB) :
    (update_request_status db).request.processed_products =
      completedCount db + failedCount db := by
  unfold update_request_status
  dsimp only []
  split_ifs <;> rfl

/-! ### C8 -/

/-- C8: the aggregation step is idempotent — running
`update_request_status` twice in succession with the underlying product
statuses unchanged (it never changes them itself) yields the same
database state, hence the same processed count and batch status, as
running it once. -/
theorem C8_aggregator_idempotent (db : DB) :
    update_request_status (update_request_status db) = update_request_status db := by
  unfold update_request_status completedCount failedCount
  dsimp only []
  split_ifs <;> simp_all

/-! ### C2 -/

/-- C2 counterexample: for a batch with total item count 0 (an empty
product list) and status `pending`, the aggregation step sets the batch
status to `completed` — but the claim requires `failed` there (all
items are terminal vacuously and zero items are `completed`) and also
says the status is left unchanged when the terminal count is 0, so the
claim is false at this input under either of its clauses. -/
theorem C2_counterexample :
    dbEmptyW.products.length = 0 ∧
    completedCount dbEmptyW = 0 ∧
    dbEmptyW.request.status = ProcessingStatus.pending ∧
    (update_request_status dbEmptyW).request.status = ProcessingStatus.completed ∧
    ¬ (update_request_status dbEmptyW).request.status = ProcessingStatus.failed ∧
    ¬ (update_request_status dbEmptyW).request.status = dbEmptyW.request.status := by
  decide

/-- C2 as amended: after the aggregation step, the processed count
equals the number of terminal items and the product rows are untouched;
when the total item count is positive: the status is `completed` when
all items are terminal and at least one is `completed`, `failed` when
all items are terminal and none is `completed`, `processing` when the
terminal count is strictly between 0 and total, and unchanged when the
terminal count is 0.  When the total item count is 0, the status is set
to `completed` (not `failed`, not left unchanged). -/
theorem C2_amended_aggregation (db : DB) :
    (update_request_status db).products = db.products ∧
    (update_request_status db).request.processed_products =
      completedCount db + failedCount db ∧
    (db.products.length = 0 →
      (update_request_status db).request.status = ProcessingStatus.completed) ∧
    (completedCount db + failedCount db = db.products.length →
      completedCount db = 0 → 0 < db.products.length →
      (update_request_status db).request.status = ProcessingStatus.failed) ∧
    (completedCount db + failedCount db = db.products.length →
      0 < completedCount db →
      (update_request_status db).request.status = ProcessingStatus.completed) ∧
    (0 < completedCount db + failedCount db →
      completedCount db + failedCount db < db.products.length →
      (update_request_status db).request.status = ProcessingStatus.processing) ∧
    (completedCount db + failedCount db = 0 → 0 < db.products.length →
      (update_request_status db).request.status = db.request.status) := by
  have hle : completedCount db + failedCount db ≤ db.products.length :=
    counts_le_length db.products
  refine ⟨update_request_status_products db, update_request_status_processed db,
          ?_, ?_, ?_, ?_, ?_⟩ <;>
  · unfold update_request_status
    dsimp only []
    generalize ht : db.products.length = t at *
    generalize hc : completedCount db = c at *
    generalize hf : failedCount db = f at *
    split_ifs <;> intros <;> first | rfl | (exfalso; omega)

/-- Witness for C2's amended theorem: on the concrete mid-run batch
`dbHalfW` (one item terminal, one pending) the aggregation step leaves
the batch `processing`. -/
theorem C2_amended_aggregation_witness :
    (update_request_status dbHalfW).request.status = ProcessingStatus.processing :=
  (C2_amended_aggregation dbHalfW).2.2.2.2.2.1 (by decide) (by decide)

/-! ### C3 -/

/-- C3 counterexample: when the single reference of a pending item
raises an unexpected exception during orchestration (e.g. the file
write fails), the item ends in the terminal status `failed` but its
persisted output list is still the initial `NULL`, read back as `[]` —
length 0, while the input reference list has length 1.  So "terminal
status implies output length = input length" is false at this input. -/
theorem C3_counterexample :
    (process_product_images "http://localhost:8000" oracleExW pOneRefW).1.status =
      ProcessingStatus.failed ∧
    (process_product_images "http://localhost:8000" oracleExW pOneRefW).1.get_output_urls.length = 0 ∧
    (process_product_images "http://localhost:8000" oracleExW pOneRefW).1.input_image_urls.length = 1 := by
  decide

/-- C3 as amended: when the item ends `completed` (the item processor
returned `True`), the persisted output list has the same length as the
input reference list and entry `j` corresponds to input reference `j`
(the generated URL on success, the `""` placeholder on failure of that
reference).  When the item ends `failed` (an orchestration exception was
caught), the output list is left as it was before the call — initially
the `NULL` column, read back as `[]` — so its length need not match. -/
theorem C3_amended_output_alignment (base : String) (oracle : Nat → RefOutcome)
    (p : Product) :
    ((process_product_images base oracle p).2 = true →
      (process_product_images base oracle p).1.status = ProcessingStatus.completed ∧
      (process_product_images base oracle p).1.get_output_urls.length =
        p.input_image_urls.length ∧
      ∀ j, j < p.input_image_urls.length →
        (process_product_images base oracle p).1.get_output_urls[j]? =
          some (refEntry base (oracle j))) ∧
    ((process_product_images base oracle p).2 = false →
      (process_product_images base oracle p).1.status = ProcessingStatus.failed ∧
      (process_product_images base oracle p).1.output_image_urls =
        p.output_image_urls) := by
  unfold process_product_images
  cases h : processRefs base oracle p.input_image_urls 0 with
  | ok outs =>
    obtain ⟨hlen, hspec⟩ := processRefs_ok_spec base oracle p.input_image_urls 0 outs h
    dsimp only []
    constructor
    · intro _
      refine ⟨rfl, ?_, ?_⟩
      · simpa [Product.get_output_urls] using hlen
      · intro j hj
        have hj2 := (hspec j hj).2
        simpa [Product.get_output_urls] using hj2
    · intro hfalse; cases hfalse
  | error e =>
    dsimp only []
    constructor
    · intro htrue; cases htrue
    · intro _; exact ⟨rfl, rfl⟩

/-- Witness for C3's amended theorem: processing the concrete one-
reference item `pOneRefW` where the reference fails at the fetch stage
still completes, and the output list length matches the input list
length. -/
theorem C3_amended_output_alignment_witness :
    (process_product_images "http://localhost:8000" oracleMixW pOneRefW).1.get_output_urls.length =
      pOneRefW.input_image_urls.length :=
  ((C3_amended_output_alignment "http://localhost:8000" oracleMixW pOneRefW).1
    (by decide)).2.1

/-! ### C4 -/

/-- C4: a failure at the fetch or transform stage of one reference
only appends the `""` placeholder at that reference's position and
processing continues (every reference still gets its output entry, and
the item still returns `True` with status `completed`); the status is
downgraded to `failed` only when some reference raises an unexpected
exception in the orchestration itself. -/
theorem C4_reference_failure_isolated (base : String) (oracle : Nat → RefOutcome)
    (p : Product) :
    ((∀ j, j < p.input_image_urls.length → oracle j ≠ RefOutcome.storageEx) →
      (process_product_images base oracle p).2 = true ∧
      (process_product_images base oracle p).1.status = ProcessingStatus.completed ∧
      (process_product_images base oracle p).1.get_output_urls.length =
        p.input_image_urls.length ∧
      ∀ j, j < p.input_image_urls.length → oracle j = RefOutcome.refFail →
        (process_product_images base oracle p).1.get_output_urls[j]? = some "") ∧
    ((process_product_images base oracle p).1.status = ProcessingStatus.failed →
      ∃ j, j < p.input_image_urls.length ∧ oracle j = RefOutcome.storageEx) := by
  unfold process_product_images
  cases h : processRefs base oracle p.input_image_urls 0 with
  | ok outs =>
    obtain ⟨hlen, hspec⟩ := processRefs_ok_spec base oracle p.input_image_urls 0 outs h
    dsimp only []
    constructor
    · intro _
      refine ⟨rfl, rfl, ?_, ?_⟩
      · simpa [Product.get_output_urls] using hlen
      · intro j hj hfail
        have hj2 := (hspec j hj).2
        rw [Nat.zero_add] at hj2
        rw [hfail] at hj2
        simpa [Product.get_output_urls, refEntry] using hj2
    · intro habs; exact absurd habs (by decide)
  | error e =>
    dsimp only []
    constructor
    · intro hno
      obtain ⟨j, hj, hst⟩ := processRefs_error_spec base oracle p.input_image_urls 0 h
      rw [Nat.zero_add] at hst
      exact absurd hst (hno j hj)
    · intro _
      obtain ⟨j, hj, hst⟩ := processRefs_error_spec base oracle p.input_image_urls 0 h
      rw [Nat.zero_add] at hst
      exact ⟨j, hj, hst⟩

/-- Witness for C4: on the concrete one-reference item whose reference
fails at the fetch stage, the item processor returns `True`, the item is
`completed`, and position 0 of the output list holds the placeholder. -/
theorem C4_reference_failure_isolated_witness :
    (process_product_images "http://localhost:8000" oracleMixW pOneRefW).1.get_output_urls[0]? =
      some "" :=
  (((C4_reference_failure_isolated "http://localhost:8000" oracleMixW pOneRefW).1
    (by decide)).2.2.2) 0 (by decide) (by decide)

/-! ### C5 -/

/-- C5 counterexample: re-invoking the driver on a batch whose item is
already `completed` re-processes that item — `process_product_images`
unconditionally commits `status = processing` first, which is a reverse
transition `completed → processing`.  The first committed state of the
already-completed item `pDoneW` has status `processing` (a strictly
smaller rank), and the driver's event trace on the already-notified
batch `dbNotifiedW` shows that the terminal item is indeed processed
again (`Ev.proc 0`). -/
theorem C5_counterexample :
    pDoneW.status = ProcessingStatus.completed ∧
    ((product_commit_trace "http://localhost:8000" oracleOkW pDoneW).map
        Product.status)[0]? = some ProcessingStatus.processing ∧
    statusRank ProcessingStatus.processing < statusRank ProcessingStatus.completed ∧
    (_process_images cfgOkW dbNotifiedW).2.2 = [Ev.proc 0, Ev.agg 1] := by
  decide

/-- C5 as amended: within a single processing of an item whose status at
entry is not yet terminal (`pending` or `processing`, rank ≤ 1), the
committed statuses only move forward along
`pending → processing → {completed, failed}`.  Re-invoking the driver on
a batch with terminal items, however, re-processes them and so moves
them back to `processing` first. -/
theorem C5_amended_forward_within_run (base : String) (oracle : Nat → RefOutcome)
    (p : Product) (h : statusRank p.status ≤ 1) :
    List.Chain' (fun a b => statusRank a.status ≤ statusRank b.status)
      (p :: product_commit_trace base oracle p) := by
  unfold product_commit_trace
  cases hr : processRefs base oracle p.input_image_urls 0 with
  | ok outs =>
    dsimp only []
    simp only [List.chain'_cons, List.chain'_singleton, and_true]
    exact ⟨by simpa [statusRank] using h, by decide⟩
  | error e =>
    dsimp only []
    simp only [List.chain'_cons, List.chain'_singleton, and_true]
    exact ⟨by simpa [statusRank] using h, by decide⟩

/-- Witness for C5's amended theorem: the commit trace of the concrete
pending item `pOneRefW` only moves forward. -/
theorem C5_amended_forward_within_run_witness :
    List.Chain' (fun a b => statusRank a.status ≤ statusRank b.status)
      (pOneRefW :: product_commit_trace "http://localhost:8000" oracleOkW pOneRefW) :=
  C5_amended_forward_within_run "http://localhost:8000" oracleOkW pOneRefW (by decide)

/-! ### Driver-level helper lemmas -/

/-- The item processor always leaves the item in a terminal status. -/
theorem process_product_images_terminal (base : String) (oracle : Nat → RefOutcome)
    (p : Product) :
    (process_product_images base oracle p).1.status = ProcessingStatus.completed ∨
    (process_product_images base oracle p).1.status = ProcessingStatus.failed := by
  unfold process_product_images
  cases processRefs base oracle p.input_image_urls 0 <;> simp

/-- Unfolding equation for one iteration of the driver loop. -/
theorem driveLoop_succ (cfg : RunCfg) (n i : Nat) (db : DB) :
    driveLoop cfg (n + 1) i db =
      if cfg.fault = some i then (db, [], true)
      else
        match db.products[i]? with
        | none => (db, [], false)
        | some p =>
          let p' := (process_product_images cfg.base (cfg.oracles i) p).1
          let db2 := update_request_status { db with products := db.products.set i p' }
          let r := driveLoop cfg n (i + 1) db2
          (r.1, Ev.proc i :: Ev.agg db2.request.processed_products :: r.2.1, r.2.2) := by
  conv_lhs => unfold driveLoop

/-- Overwriting position `j` of the product list with a terminal row
never decreases the number of terminal rows — the processed count only
grows as the driver walks the batch. -/
theorem counts_set_terminal_mono (p' : Product)
    (hp' : p'.status = ProcessingStatus.completed ∨
           p'.status = ProcessingStatus.failed) :
    ∀ (l : List Product) (j : Nat),
    (l.filter (fun q => q.status = ProcessingStatus.completed)).length +
    (l.filter (fun q => q.status = ProcessingStatus.failed)).length ≤
    ((l.set j p').filter (fun q => q.status = ProcessingStatus.completed)).length +
    ((l.set j p').filter (fun q => q.status = ProcessingStatus.failed)).length := by
  intro l
  induction l with
  | nil => intro j; simp
  | cons a t ih =>
    intro j
    cases j with
    | zero =>
      simp only [List.set]
      have hle := counts_le_length t
      by_cases h1 : a.status = ProcessingStatus.completed
      · have h2 : ¬ a.status = ProcessingStatus.failed := by
          rw [h1]; intro hc; cases hc
        rcases hp' with h' | h' <;>
          · have h'' : ¬ (p'.status = ProcessingStatus.completed ∧
                          p'.status = ProcessingStatus.failed) := by
              rintro ⟨ha, hb⟩; rw [ha] at hb; cases hb
            simp [List.filter_cons, h1, h2, h']
            all_goals omega
      · by_cases h2 : a.status = ProcessingStatus.failed <;>
          rcases hp' with h' | h' <;>
            (simp [List.filter_cons, h1, h2, h']; all_goals omega)
    | succ j' =>
      simp only [List.set]
      have := ih j'
      by_cases h1 : a.status = ProcessingStatus.completed <;>
        by_cases h2 : a.status = ProcessingStatus.failed <;>
          simp [List.filter_cons, h1, h2] <;> omega

/-- The driver loop never touches the notification-sent flag (only the
item processor and the aggregator run inside it, and neither writes it)
and never emits a webhook event. -/
theorem driveLoop_webhook_frame (cfg : RunCfg) :
    ∀ (fuel i : Nat) (db : DB),
    (driveLoop cfg fuel i db).1.request.webhook_triggered =
      db.request.webhook_triggered ∧
    Ev.hookSent ∉ (driveLoop cfg fuel i db).2.1 := by
  intro fuel
  induction fuel with
  | zero => intro i db; simp [driveLoop]
  | succ n ih =>
    intro i db
    rw [driveLoop_succ]
    split_ifs with hfault
    · simp
    · cases hp : db.products[i]? with
      | none => simp
      | some p =>
        dsimp only []
        set p' := (process_product_images cfg.base (cfg.oracles i) p).1 with hp'
        set db2 := update_request_status { db with products := db.products.set i p' } with hdb2
        have ih2 := ih (i + 1) db2
        refine ⟨?_, ?_⟩
        · rw [ih2.1, hdb2]
          exact (update_request_status_frame _).2.1
        · intro hmem
          rcases List.mem_cons.mp hmem with h | h
          · cases h
          · rcases List.mem_cons.mp h with h' | h'
            · cases h'
            · exact ih2.2 h'

/-- With no driver fault configured, the loop never reports an escaped
exception. -/
theorem driveLoop_no_fault (cfg : RunCfg) (hf : cfg.fault = none) :
    ∀ (fuel i : Nat) (db : DB), (driveLoop cfg fuel i db).2.2 = false := by
  intro fuel
  induction fuel with
  | zero => intro i db; rfl
  | succ n ih =>
    intro i db
    rw [driveLoop_succ]
    split_ifs with hfault
    · rw [hf] at hfault; cases hfault
    · cases hp : db.products[i]? with
      | none => rfl
      | some p => exact ih (i + 1) _

/-- When a driver fault is configured at item index `k` and the loop
starts at `i ≤ k` with `k` inside the batch, the loop reports the
escaped exception, and the final product rows are: the processed version
for the items the loop got through (indices in `[i, k)`), untouched for
all others — already-committed item work is not rolled back. -/
theorem driveLoop_fault_run (cfg : RunCfg) (k : Nat) (hk : cfg.fault = some k) :
    ∀ (fuel i : Nat) (db : DB), i + fuel = db.products.length → i ≤ k →
    k < db.products.length →
    (driveLoop cfg fuel i db).2.2 = true ∧
    ∀ j, (driveLoop cfg fuel i db).1.products[j]? =
      (if i ≤ j ∧ j < k then (db.products[j]?).map (processedItem cfg j)
       else db.products[j]?) := by
  intro fuel
  induction fuel with
  | zero =>
    intro i db hlen hik hk2
    omega
  | succ n ih =>
    intro i db hlen hik hk2
    rw [driveLoop_succ]
    by_cases hi : i = k
    · subst hi
      rw [if_pos hk]
      refine ⟨rfl, ?_⟩
      intro j
      rw [if_neg (by omega)]
    · have hikk : i < k := by omega
      have hffalse : ¬ cfg.fault = some i := by
        rw [hk]; intro hc; injection hc with hc'; omega
      rw [if_neg hffalse]
      have hilt : i < db.products.length := by omega
      rw [List.getElem?_eq_getElem hilt]
      dsimp only []
      set p' := (process_product_images cfg.base (cfg.oracles i) db.products[i]).1 with hp'
      set db2 := update_request_status { db with products := db.products.set i p' } with hdb2
      have hlen2 : i + 1 + n = db2.products.length := by
        rw [hdb2, update_request_status_products]
        simp only [List.length_set]
        omega
      have hk22 : k < db2.products.length := by
        rw [hdb2, update_request_status_products]
        simpa [List.length_set] using hk2
      obtain ⟨hfault, hprod⟩ := ih (i + 1) db2 hlen2 (by omega) hk22
      refine ⟨hfault, ?_⟩
      intro j
      rw [hprod j]
      have hdb2p : db2.products = db.products.set i p' := by
        rw [hdb2, update_request_status_products]
      by_cases hji : j = i
      · subst hji
        rw [if_neg (by omega), if_pos ⟨le_refl j, hikk⟩, hdb2p]
        rw [List.getElem?_set_eq_of_lt p' hilt]
        rw [List.getElem?_eq_getElem hilt]
        rfl
      · have hset : db2.products[j]? = db.products[j]? := by
          rw [hdb2p]
          exact List.getElem?_set_ne (by omega)
        rw [hset]
        by_cases hcase : i ≤ j ∧ j < k
        · rw [if_pos ⟨by omega, hcase.2⟩, if_pos hcase]
        · rw [if_neg (by omega), if_neg hcase]

/-! ### C7 -/

/-- C7: if an unexpected exception escapes the driver's item loop at
item index `k`, the batch status is forced to `failed`, the run returns
the error result object (status `"error"` with the batch identifier and
an error message), and the already-committed work of the items before
`k` is kept (their rows hold exactly what the item processor left) while
the items from `k` on are untouched.  A run with no escaping exception
returns the success result object. -/
theorem C7_driver_fault (cfg : RunCfg) (db : DB) :
    (∀ k, cfg.fault = some k → k < db.products.length →
      (_process_images cfg db).2.1 =
        { status := "error", request_id := db.request.id,
          error := some "exception" } ∧
      (_process_images cfg db).1.request.status = ProcessingStatus.failed ∧
      (∀ j, j < k →
        (_process_images cfg db).1.products[j]? =
          (db.products[j]?).map (processedItem cfg j)) ∧
      (∀ j, k ≤ j →
        (_process_images cfg db).1.products[j]? = db.products[j]?)) ∧
    (cfg.fault = none →
      (_process_images cfg db).2.1 =
        { status := "success", request_id := db.request.id, error := none }) := by
  constructor
  · intro k hk hklen
    unfold _process_images
    dsimp only []
    set db1 : DB :=
      { db with request :=
          { db.request with status := ProcessingStatus.processing } } with hdb1
    have hlen1 : db1.products.length = db.products.length := rfl
    obtain ⟨hfault, hprod⟩ := driveLoop_fault_run cfg k hk db1.products.length 0 db1
      (by omega) (Nat.zero_le k) (by rw [hlen1]; exact hklen)
    rcases hres : driveLoop cfg db1.products.length 0 db1 with ⟨db2, evs, faulted⟩
    rw [hres] at hfault hprod
    dsimp only [] at hfault hprod
    subst hfault
    dsimp only []
    refine ⟨rfl, rfl, ?_, ?_⟩
    · intro j hj
      have hpj := hprod j
      rw [if_pos ⟨Nat.zero_le j, hj⟩] at hpj
      exact hpj
    · intro j hj
      have hpj := hprod j
      rw [if_neg (by omega)] at hpj
      exact hpj
  · intro hf
    unfold _process_images
    dsimp only []
    set db1 : DB :=
      { db with request :=
          { db.request with status := ProcessingStatus.processing } } with hdb1
    have hnf := driveLoop_no_fault cfg hf db1.products.length 0 db1
    rcases hres : driveLoop cfg db1.products.length 0 db1 with ⟨db2, evs, faulted⟩
    rw [hres] at hnf
    dsimp only [] at hnf
    subst hnf
    dsimp only []

/-- Witness for C7: the concrete faulting run `cfgFaultW` on the
already-notified one-item batch returns the error result object. -/
theorem C7_driver_fault_witness :
    (_process_images cfgFaultW dbNotifiedW).2.1 =
      { status := "error", request_id := dbNotifiedW.request.id,
        error := some "exception" } :=
  ((C7_driver_fault cfgFaultW dbNotifiedW).1 0 rfl (by decide)).1

/-! ### C1 -/

/-- C1: the notification-sent flag transitions false→true at most once
and only on a successful delivery while the batch status is `completed`.
Concretely: (a) a callback is delivered only when the flag was false,
the status was `completed` and the POST succeeded, and then the flag is
persisted true; (b) when the flag is already true the notifier is a
no-op (no callback, state unchanged); (c) the flag becomes true only if
it already was or a callback was delivered on this call; and (d) no
matter how a whole `processBatch` run goes, if the batch's flag is
already true, the run delivers no callback and leaves the flag true. -/
theorem C1_webhook_at_most_once :
    (∀ (g : String) (d : Bool) (db : DB),
      ((trigger_webhook_if_needed g d db).2 = true →
        db.request.webhook_triggered = false ∧
        db.request.status = ProcessingStatus.completed ∧ d = true ∧
        (trigger_webhook_if_needed g d db).1.request.webhook_triggered = true) ∧
      (db.request.webhook_triggered = true →
        trigger_webhook_if_needed g d db = (db, false)) ∧
      ((trigger_webhook_if_needed g d db).1.request.webhook_triggered = true →
        db.request.webhook_triggered = true ∨
        (trigger_webhook_if_needed g d db).2 = true)) ∧
    (∀ (cfg : RunCfg) (db0 : DB),
      db0.request.webhook_triggered = true →
      Ev.hookSent ∉ (_process_images cfg db0).2.2 ∧
      (_process_images cfg db0).1.request.webhook_triggered = true) := by
  constructor
  · intro g d db
    by_cases h1 : db.request.webhook_triggered = true ∨
        db.request.status ≠ ProcessingStatus.completed
    · have hres : trigger_webhook_if_needed g d db = (db, false) := by
        unfold trigger_webhook_if_needed
        rw [if_pos h1]
      rw [hres]
      exact ⟨(fun hs => nomatch hs), fun _ => rfl, fun hf => Or.inl hf⟩
    · have hwt : db.request.webhook_triggered = false := by
        cases h : db.request.webhook_triggered
        · rfl
        · exact absurd (Or.inl h) h1
      have hst : db.request.status = ProcessingStatus.completed := by
        by_contra hx
        exact h1 (Or.inr hx)
      by_cases h2 : (if db.request.webhook_url ≠ "" then db.request.webhook_url
                     else g) = ""
      · have hres : trigger_webhook_if_needed g d db = (db, false) := by
          unfold trigger_webhook_if_needed
          rw [if_neg h1]
          dsimp only []
          rw [if_pos h2]
        rw [hres]
        exact ⟨(fun hs => nomatch hs), fun _ => rfl, fun hf => Or.inl hf⟩
      · cases hd : d
        · have hres : trigger_webhook_if_needed g false db = (db, false) := by
            unfold trigger_webhook_if_needed
            rw [if_neg h1]
            dsimp only []
            rw [if_neg h2]
            simp
          rw [hres]
          exact ⟨(fun hs => nomatch hs), fun _ => rfl, fun hf => Or.inl hf⟩
        · have hres : trigger_webhook_if_needed g true db =
              ({ db with request :=
                  { db.request with webhook_triggered := true } }, true) := by
            unfold trigger_webhook_if_needed
            rw [if_neg h1]
            dsimp only []
            rw [if_neg h2]
            simp
          rw [hres]
          exact ⟨fun _ => ⟨hwt, hst, rfl, rfl⟩,
                 fun hf => absurd (Or.inl hf) h1,
                 fun _ => Or.inr rfl⟩
  · intro cfg db0 hflag
    unfold _process_images
    dsimp only []
    set db1 : DB :=
      { db0 with request :=
          { db0.request with status := ProcessingStatus.processing } } with hdb1
    have hframe := driveLoop_webhook_frame cfg db1.products.length 0 db1
    rcases hres : driveLoop cfg db1.products.length 0 db1 with ⟨db2, evs, faulted⟩
    rw [hres] at hframe
    dsimp only [] at hframe
    obtain ⟨hwt2, hnosent⟩ := hframe
    have hwt2' : db2.request.webhook_triggered = true := by
      rw [hwt2]; exact hflag
    cases faulted
    · dsimp only []
      have htrig : trigger_webhook_if_needed cfg.globalWebhook cfg.deliveryOk db2 =
          (db2, false) := by
        unfold trigger_webhook_if_needed
        rw [if_pos (Or.inl hwt2')]
      rw [htrig]
      dsimp only []
      refine ⟨?_, hwt2'⟩
      simpa using hnosent
    · exact ⟨hnosent, hwt2'⟩

/-- Witness for C1: re-running the driver on the already-notified batch
`dbNotifiedW` delivers no callback event. -/
theorem C1_webhook_at_most_once_witness :
    Ev.hookSent ∉ (_process_images cfgOkW dbNotifiedW).2.2 :=
  (C1_webhook_at_most_once.2 cfgOkW dbNotifiedW rfl).1

/-- Event-trace shape of a fault-free driver loop covering the rest of
the batch: the trace is `proc i, agg c_i, proc (i+1), agg c_(i+1), …` —
items strictly in list (manifest) order, the aggregation invoked
synchronously after each item — and the aggregation counters `c_j` are
monotonically non-decreasing, never below the current terminal count. -/
theorem driveLoop_trace_spec (cfg : RunCfg) (hf : cfg.fault = none) :
    ∀ (fuel i : Nat) (db : DB), i + fuel = db.products.length →
    ∃ cs : List Nat,
      (driveLoop cfg fuel i db).2.1 =
        ((List.range' i fuel).zip cs).flatMap
          (fun x => [Ev.proc x.1, Ev.agg x.2]) ∧
      cs.length = fuel ∧
      (∀ c ∈ cs, completedCount db + failedCount db ≤ c) ∧
      List.Chain' (fun a b => a ≤ b) cs := by
  intro fuel
  induction fuel with
  | zero =>
    intro i db hlen
    exact ⟨[], rfl, rfl, (fun c hc => nomatch hc), List.chain'_nil⟩
  | succ n ih =>
    intro i db hlen
    rw [driveLoop_succ]
    have hff : ¬ cfg.fault = some i := by rw [hf]; intro hc; cases hc
    rw [if_neg hff]
    have hilt : i < db.products.length := by omega
    rw [List.getElem?_eq_getElem hilt]
    dsimp only []
    set p' := (process_product_images cfg.base (cfg.oracles i) db.products[i]).1
      with hp'
    set db2 := update_request_status { db with products := db.products.set i p' }
      with hdb2
    have hterm : p'.status = ProcessingStatus.completed ∨
        p'.status = ProcessingStatus.failed := by
      rw [hp']
      exact process_product_images_terminal cfg.base (cfg.oracles i) db.products[i]
    have hmono : completedCount db + failedCount db ≤
        completedCount db2 + failedCount db2 := by
      rw [hdb2]
      unfold completedCount failedCount
      rw [update_request_status_products]
      exact counts_set_terminal_mono p' hterm db.products i
    have hc1 : db2.request.processed_products =
        completedCount db2 + failedCount db2 := by
      rw [hdb2, update_request_status_processed]
      unfold completedCount failedCount
      rw [update_request_status_products]
    have hlen2 : i + 1 + n = db2.products.length := by
      rw [hdb2, update_request_status_products]
      simp only [List.length_set]
      omega
    obtain ⟨cs, hevs, hcslen, hlb, hchain⟩ := ih (i + 1) db2 hlen2
    refine ⟨db2.request.processed_products :: cs, ?_, by simp [hcslen], ?_, ?_⟩
    · show Ev.proc i :: Ev.agg db2.request.processed_products ::
          (driveLoop cfg n (i + 1) db2).2.1 = _
      rw [hevs]
      rfl
    · intro c hc
      rcases List.mem_cons.mp hc with h | h
      · rw [h, hc1]; exact hmono
      · exact le_trans hmono (hlb c h)
    · rw [List.chain'_cons']
      refine ⟨?_, hchain⟩
      intro y hy
      rw [hc1]
      exact hlb y (List.mem_of_mem_head? hy)

/-! ### C6 -/

/-- C6: on a fault-free run, the driver's observable event trace is
exactly `proc 0, agg c_0, proc 1, agg c_1, …, proc (n-1), agg c_(n-1)`
followed possibly by the webhook event — the batch's items are processed
strictly in list (manifest row) order, the aggregation step runs
synchronously after each item, and the processed counters recorded at
the aggregation points are monotonically non-decreasing. -/
theorem C6_manifest_order (cfg : RunCfg) (db : DB) (hf : cfg.fault = none) :
    ∃ (cs : List Nat) (tail : List Ev),
      (_process_images cfg db).2.2 =
        ((List.range db.products.length).zip cs).flatMap
          (fun x => [Ev.proc x.1, Ev.agg x.2]) ++ tail ∧
      cs.length = db.products.length ∧
      List.Chain' (fun a b => a ≤ b) cs ∧
      (tail = [] ∨ tail = [Ev.hookSent]) := by
  unfold _process_images
  dsimp only []
  set db1 : DB :=
    { db with request :=
        { db.request with status := ProcessingStatus.processing } } with hdb1
  have hnf := driveLoop_no_fault cfg hf db1.products.length 0 db1
  obtain ⟨cs, hevs, hcslen, hlb, hchain⟩ :=
    driveLoop_trace_spec cfg hf db1.products.length 0 db1 (by omega)
  rcases hres : driveLoop cfg db1.products.length 0 db1 with ⟨db2, evs, faulted⟩
  rw [hres] at hnf hevs
  dsimp only [] at hnf hevs
  subst hnf
  dsimp only []
  rcases htr : trigger_webhook_if_needed cfg.globalWebhook cfg.deliveryOk db2
    with ⟨db3, sent⟩
  dsimp only []
  refine ⟨cs, if sent = true then [Ev.hookSent] else [], ?_, hcslen, hchain, ?_⟩
  · rw [hevs, List.range_eq_range']
  · cases sent <;> simp

/-- Witness for C6: a fault-free run on the concrete two-item batch
`dbHalfW` has the claimed trace shape. -/
theorem C6_manifest_order_witness :
    ∃ (cs : List Nat) (tail : List Ev),
      (_process_images cfgOkW dbHalfW).2.2 =
        ((List.range dbHalfW.products.length).zip cs).flatMap
          (fun x => [Ev.proc x.1, Ev.agg x.2]) ++ tail ∧
      cs.length = dbHalfW.products.length ∧
      List.Chain' (fun a b => a ≤ b) cs ∧
      (tail = [] ∨ tail = [Ev.hookSent]) :=
  C6_manifest_order cfgOkW dbHalfW rfl

/-! ### C10 -/

/-- C10: a `processBatch` run on a batch with no items sets the batch
status to `processing` and changes nothing else, emits no events at all
(the aggregation step is never invoked, so the status never becomes
terminal, and no completion notification is sent), and still returns
the success result object. -/
theorem C10_empty_batch (cfg : RunCfg) (db : DB) (h : db.products = []) :
    (_process_images cfg db).1 =
      { db with request :=
          { db.request with status := ProcessingStatus.processing } } ∧
    (_process_images cfg db).2.1 =
      { status := "success", request_id := db.request.id, error := none } ∧
    (_process_images cfg db).2.2 = [] := by
  obtain ⟨r, ps⟩ := db
  have hps : ps = [] := h
  subst hps
  refine ⟨?_, ?_, ?_⟩ <;>
    simp [_process_images, driveLoop, trigger_webhook_if_needed]

/-- Witness for C10: the concrete empty batch `dbEmptyW` ends
`processing` with the success result and an empty event trace. -/
theorem C10_empty_batch_witness :
    (_process_images cfgOkW dbEmptyW).2.1 =
      { status := "success", request_id := dbEmptyW.request.id, error := none } :=
  (C10_empty_batch cfgOkW dbEmptyW rfl).2.1

/-! ### C9 -/

/-- `String.intercalate.go acc s l` always extends its accumulator. -/
theorem intercalate_go_extends (s : String) :
    ∀ (l : List String) (acc : String),
    ∃ b, String.intercalate.go acc s l = acc ++ b := by
  intro l
  induction l with
  | nil =>
    intro acc
    refine ⟨"", ?_⟩
    show String.intercalate.go acc s [] = acc ++ ""
    simp
    rfl
  | cons a as ih =>
    intro acc
    obtain ⟨b, hb⟩ := ih (acc ++ s ++ a)
    refine ⟨s ++ a ++ b, ?_⟩
    show String.intercalate.go (acc ++ s ++ a) s as = _
    rw [hb, String.append_assoc, String.append_assoc, String.append_assoc]

/-- Every member of the remaining list appears verbatim inside
`String.intercalate.go`. -/
theorem intercalate_go_split (s : String) :
    ∀ (l : List String) (acc u : String), u ∈ l →
    ∃ x y, String.intercalate.go acc s l = x ++ u ++ y := by
  intro l
  induction l with
  | nil => intro acc u hu; cases hu
  | cons a as ih =>
    intro acc u hu
    rcases List.mem_cons.mp hu with h | h
    · subst h
      obtain ⟨b, hb⟩ := intercalate_go_extends s as (acc ++ s ++ u)
      refine ⟨acc ++ s, b, ?_⟩
      show String.intercalate.go (acc ++ s ++ u) s as = _
      rw [hb]
    · obtain ⟨x, y, hxy⟩ := ih (acc ++ s ++ a) u h
      exact ⟨x, y, hxy⟩

/-- A `','.join(l)` contains each element of `l` verbatim. -/
theorem intercalate_split (s u : String) (l : List String) (hu : u ∈ l) :
    ∃ x y, String.intercalate s l = x ++ u ++ y := by
  cases l with
  | nil => cases hu
  | cons a as =>
    rcases List.mem_cons.mp hu with h | h
    · subst h
      obtain ⟨b, hb⟩ := intercalate_go_extends s as u
      refine ⟨"", b, ?_⟩
      show String.intercalate.go u s as = _
      rw [hb, String.empty_append]
    · obtain ⟨x, y, hxy⟩ := intercalate_go_split s as a u h
      exact ⟨x, y, hxy⟩

set_option maxRecDepth 10000 in
/-- C9 counterexample: the URL `process_image` returns for a
successfully processed reference is
`{API_BASE_URL}/api/image/{generated-name}.jpg` — its path (the part
after the base) is `/api/image/abc.jpg`, whose first seven characters
are not `/image/`, so the path does not have the form
`/image/{generated-name}.jpg` claimed (the serving route
`/image/{filename}` is mounted under the `/api` router prefix). -/
theorem C9_counterexample :
    process_image "http://localhost:8000" (RefOutcome.ok "abc") =
      Except.ok (some "http://localhost:8000/api/image/abc.jpg") ∧
    mkImageUrl "http://localhost:8000" "abc" =
      "http://localhost:8000" ++ "/api/image/" ++ "abc" ++ ".jpg" ∧
    ("http://localhost:8000/api/image/abc.jpg").data.drop
        ("http://localhost:8000").data.length = ("/api/image/abc.jpg").data ∧
    (("http://localhost:8000/api/image/abc.jpg").data.drop
        ("http://localhost:8000").data.length).take 7 ≠ ("/image/").data := by
  refine ⟨rfl, rfl, ?_, ?_⟩ <;> decide

/-- C9 as amended: every non-placeholder entry the item processor writes
is `{API_BASE_URL}/api/image/{generated-name}.jpg` with the freshly
generated name of that reference; this exact string is entry `j` of the
persisted output list, an element of that list, and appears verbatim
inside the product's row of the downloadable result manifest. -/
theorem C9_amended_url_form (base : String) (oracle : Nat → RefOutcome)
    (p : Product) (j : Nat) (name : String)
    (hok : (process_product_images base oracle p).2 = true)
    (hj : j < p.input_image_urls.length)
    (hname : oracle j = RefOutcome.ok name) :
    (process_product_images base oracle p).1.get_output_urls[j]? =
      some (base ++ "/api/image/" ++ name ++ ".jpg") ∧
    (base ++ "/api/image/" ++ name ++ ".jpg") ∈
      (process_product_images base oracle p).1.get_output_urls ∧
    ∃ x y, csvRow (process_product_images base oracle p).1 =
      x ++ (base ++ "/api/image/" ++ name ++ ".jpg") ++ y := by
  have hentry : (process_product_images base oracle p).1.get_output_urls[j]? =
      some (base ++ "/api/image/" ++ name ++ ".jpg") := by
    revert hok
    unfold process_product_images
    cases h : processRefs base oracle p.input_image_urls 0 with
    | ok outs =>
      intro _
      obtain ⟨hlen, hspec⟩ := processRefs_ok_spec base oracle p.input_image_urls 0 outs h
      have hj2 := (hspec j hj).2
      rw [Nat.zero_add, hname] at hj2
      dsimp only []
      simpa [Product.get_output_urls, refEntry, mkImageUrl] using hj2
    | error e =>
      intro hok
      cases hok
  have hmem : (base ++ "/api/image/" ++ name ++ ".jpg") ∈
      (process_product_images base oracle p).1.get_output_urls := by
    obtain ⟨hlt, hg⟩ := List.getElem?_eq_some.mp hentry
    exact hg ▸ List.getElem_mem hlt
  refine ⟨hentry, hmem, ?_⟩
  obtain ⟨x, y, hxy⟩ :=
    intercalate_split "," (base ++ "/api/image/" ++ name ++ ".jpg")
      (process_product_images base oracle p).1.get_output_urls hmem
  refine ⟨toString (process_product_images base oracle p).1.serial_number ++ "," ++
          (process_product_images base oracle p).1.product_name ++ "," ++
          String.intercalate ","
            (process_product_images base oracle p).1.input_image_urls ++ "," ++ x,
          y ++ "\n", ?_⟩
  unfold csvRow
  rw [hxy]
  simp only [String.append_assoc]

/-- Witness for C9's amended theorem: the successful processing of the
concrete item `pOneRefW` puts the full `/api/image/` URL at position 0
of the output list. -/
theorem C9_amended_url_form_witness :
    (process_product_images "http://localhost:8000" oracleOkW pOneRefW).1.get_output_urls[0]? =
      some ("http://localhost:8000" ++ "/api/image/" ++ "n0" ++ ".jpg") :=
  (C9_amended_url_form "http://localhost:8000" oracleOkW pOneRefW 0 "n0"
    (by decide) (by decide) (by decide)).1

end ImageAPI
